import Mathlib

/-!
Verification of the endpoint-registration dispatcher of the npc-vortex-extension
repository (`src/index.ts`, function `registerNpcApi`), against its natural-language
specification.  The TypeScript source is shallowly embedded below: untyped JavaScript
values are modelled by `JsValue`, the zod schemas used at the boundary by
`Option`-returning parse functions, Node's `path.join` by an explicit, executable
`pathJoin` parametrised over the platform, and the side effects of registration
(factory calls, error-event subscription, listen calls, log calls) by an explicit
event trace.
-/

set_option maxHeartbeats 1000000

namespace NpcVortex

/-- The two flavours of Node's `path` module.  The source imports `join` from
`"path"`, whose behaviour depends on the host platform. -/
inductive Platform
  | posix
  | win32
deriving DecidableEq

/-- The separator character Node's `path.join` inserts on each platform. -/
def sepChar : Platform → Char
  | .posix => '/'
  | .win32 => '\\'

/-- Which characters Node's `path.normalize` treats as separators on each platform
(win32 accepts both forward and backward slashes). -/
def isSep : Platform → Char → Bool
  | .posix, c => c = '/'
  | .win32, c => c = '/' || c = '\\'

/-- The platform separator as a one-character string. -/
def sepStr (plat : Platform) : String := String.mk [sepChar plat]

/-- Split a character list into segments at separator characters.  Always returns a
non-empty list of segments. -/
def splitSegs (p : Char → Bool) : List Char → List (List Char)
  | [] => [[]]
  | c :: cs =>
    let r := splitSegs p cs
    if p c then [] :: r
    else (c :: r.headD []) :: r.tail

/-- One step of Node-style path normalization over the (reversed) accumulated
segments: empty and `"."` segments are dropped, `".."` pops the previous normal
segment. -/
def normStep (acc : List String) (seg : String) : List String :=
  if seg = "" ∨ seg = "." then acc
  else if seg = ".." then
    match acc with
    | [] => [".."]
    | h :: t => if h = ".." then ".." :: h :: t else t
  else seg :: acc

/-- Normalize a segment list Node-style. -/
def normSegs (segs : List String) : List String := (segs.foldl normStep []).reverse

/-- Join segments with a separator string. -/
def joinSegs (sep : String) : List String → String
  | [] => ""
  | [s] => s
  | s :: rest => s ++ sep ++ joinSegs sep rest

/-- Model of Node's `path.normalize` for relative paths: split at separators, drop
empty and `"."` segments, resolve `".."`, re-join with the platform separator; an
empty result normalizes to `"."`.  Windows drive letters, absolute-path roots and
trailing-separator preservation are not modelled (never exercised here). -/
def pathNormalize (plat : Platform) (s : String) : String :=
  let segs := (splitSegs (isSep plat) s.data).map String.mk
  let n := normSegs segs
  if n = [] then "." else joinSegs (sepStr plat) n

/-- Model of Node's `path.join` restricted to its two-argument use in the source:
concatenate the non-empty arguments with the platform separator and normalize;
`join('', '')` is `"."`. -/
def pathJoin (plat : Platform) (a b : String) : String :=
  let joined := if a = "" then b else if b = "" then a else a ++ sepStr plat ++ b
  if joined = "" then "." else pathNormalize plat joined

/-- The path components of a string (split at the platform's separators). -/
def components (plat : Platform) (s : String) : List String :=
  (splitSegs (isSep plat) s.data).map String.mk

/-- The last path component of a string. -/
def lastComponent (plat : Platform) (s : String) : Option String :=
  (components plat s).getLast?

/-- `s` contains `p` as a suffix component: the last path component of `s` is `p`. -/
def hasSuffixComponent (plat : Platform) (s p : String) : Prop :=
  lastComponent plat s = some p

/-- Untyped JavaScript values reaching the `registerNpcApi` boundary.  Functions
are represented by an identity tag (their behaviour is never invoked during
registration); `obj` lists own enumerable properties in the object's property
iteration order. -/
inductive JsValue
  | undefv
  | nullv
  | boolv (b : Bool)
  | num (n : Int)
  | str (s : String)
  | fn (id : Nat)
  | obj (fields : List (String × JsValue))

/-- JavaScript truthiness. -/
def truthy : JsValue → Bool
  | .undefv => false
  | .nullv => false
  | .boolv b => b
  | .num n => n != 0
  | .str s => s != ""
  | .fn _ => true
  | .obj _ => true

/-- `z.string().safeParse`: succeeds exactly on strings (the empty string
included). -/
def zStringSafeParse : JsValue → Option String
  | .str s => some s
  | _ => none

/-- Modelled from the spec: `callbackSchema` of the external `@toebean/npc`
collaborator.  Per the spec's handler contract a value is handler-shaped iff it is
a (single-argument) invocable, i.e. a function. -/
def callbackSafeParse : JsValue → Option Nat
  | .fn i => some i
  | _ => none

/-- First-match property lookup in an object's field list. -/
def lookupField : List (String × JsValue) → String → Option JsValue
  | [], _ => none
  | (k, v) :: rest, key => if k = key then some v else lookupField rest key

/-- `v?.[k]`: optional-chained property access, `undefined` whenever `v` is not an
object or lacks the property. -/
def jsIndex : JsValue → String → JsValue
  | .obj fs, k => (lookupField fs k).getD .undefv
  | _, _ => .undefv

/-- Whether a value is a plain object. -/
def JsValue.isObj : JsValue → Bool
  | .obj _ => true
  | _ => false

/-- Modelled from the spec: `npcApiSchema` of the external `@toebean/npc-vortex-api`
collaborator.  A namespace map is a plain mapping whose reserved `middleware`
property, when present, must itself be a plain mapping; the remaining property
values are unconstrained at this layer (non-handler values are tolerated and later
dropped by the loop). -/
def npcApiSafeParse : JsValue → Option (List (String × JsValue))
  | .obj fields =>
    match lookupField fields "middleware" with
    | some v => if v.isObj then some fields else none
    | none => some fields
  | _ => none

/-- `api.middleware?.[prop]`: the middleware map entry for property `prop`. -/
def mwLookup (fields : List (String × JsValue)) (prop : String) : JsValue :=
  jsIndex ((lookupField fields "middleware").getD .undefv) prop

/-- The middleware argument the batch loop passes for property `prop`: the
middleware entry when it is truthy and passes `callbackSchema.safeParse`
(`api.middleware?.[property] && callbackSchema.safeParse(api.middleware[property]).success`),
`undefined` otherwise (the two-argument recursive call). -/
def mwArg (fields : List (String × JsValue)) (prop : String) : JsValue :=
  let m := mwLookup fields prop
  if truthy m && (callbackSafeParse m).isSome then m else .undefv

/-- The single error-event handler the source ever subscribes:
`(error) => log('warn', error.message, error)`. -/
inductive ErrHandler
  | warnLog
deriving DecidableEq

/-- A runtime error value raised by a handler (its message plus an identity tag
standing for the full error value). -/
structure NpcError where
  message : String
  code : Nat
deriving DecidableEq

/-- One call to the `log` collaborator: level, message, and the details value. -/
structure LogEntry where
  level : String
  message : String
  details : NpcError
deriving DecidableEq

/-- Run a subscribed error handler on an error event. -/
def runErrHandler : ErrHandler → NpcError → LogEntry
  | .warnLog, e => ⟨"warn", e.message, e⟩

/-- The endpoint object returned by the external `create` factory: the callback it
wraps, its optional middleware, the endpoint name once listening, and the
subscribed error handlers. -/
structure Npc where
  callback : Nat
  middleware : Option Nat
  endpoint : Option String
  errorHandlers : List ErrHandler
deriving DecidableEq

/-- `create(callback[, middleware])`: a fresh endpoint, not yet listening, with no
error subscribers. -/
def createNpc (cb : Nat) (mw : Option Nat) : Npc := ⟨cb, mw, none, []⟩

/-- `npc.on('error', h)`: subscribe an error handler. -/
def npcOn (n : Npc) (h : ErrHandler) : Npc :=
  { n with errorHandlers := n.errorHandlers ++ [h] }

/-- `npc.listen(name)` (successful case): the endpoint becomes `name`. -/
def npcListen (n : Npc) (name : String) : Npc := { n with endpoint := some name }

/-- Deliver one error event: each subscribed handler produces one log call. -/
def npcEmitError (n : Npc) (e : NpcError) : List LogEntry :=
  n.errorHandlers.map (fun h => runErrHandler h e)

/-- Observable side effects of a registration call, in order: a factory call
(`create`), an error-event subscription, a listen attempt, a log call. -/
inductive Ev
  | create (cb : Nat) (mw : Option Nat)
  | onError
  | listen (name : String)
  | logw (entry : LogEntry)
deriving DecidableEq

/-- Failure of a registration future: a synchronous zod validation error (tagged
with the violated schema) or a transport rejection of `listen`. -/
inductive RegError
  | validation (schema : String)
  | listenFail (name : String)
deriving DecidableEq

/-- A resolved registration: one identifier (single form) or the ordered
identifier sequence (batch form). -/
inductive RegResult
  | single (id : String)
  | batch (ids : List String)
deriving DecidableEq

deriving instance DecidableEq for Except

/-- The external transport: whether `listen` succeeds for a given endpoint name. -/
structure Env where
  transport : String → Bool

/-- An environment in which every `listen` succeeds. -/
def allOkEnv : Env := ⟨fun _ => true⟩

/-- The single-handler branch of `registerNpcApi` (source lines 36-46), as invoked
both directly and by the batch loop's recursive calls:
validate the first argument with `z.string()`, parse the callback, parse the
middleware when truthy, `create` the endpoint, subscribe the warn-logging error
handler, `listen` under `join('vortex', path)`, and resolve with `npc.endpoint`. -/
def registerSingle (env : Env) (plat : Platform)
    (pathOrNamespace callbackOrApi middleware : JsValue) :
    Except RegError RegResult × List Ev :=
  match zStringSafeParse pathOrNamespace with
  | none => (.error (.validation "string"), [])
  | some path =>
    match callbackSafeParse callbackOrApi with
    | none => (.error (.validation "callback"), [])
    | some cbId =>
      let mwParsed : Except RegError (Option Nat) :=
        if truthy middleware then
          match callbackSafeParse middleware with
          | some m => .ok (some m)
          | none => .error (.validation "callback")
        else .ok none
      match mwParsed with
      | .error e => (.error e, [])
      | .ok mwId =>
        let npc := npcOn (createNpc cbId mwId) .warnLog
        let name := pathJoin plat "vortex" path
        let evs := [Ev.create cbId mwId, Ev.onError, Ev.listen name]
        if env.transport name then
          (.ok (.single (((npcListen npc name).endpoint).getD "")), evs)
        else
          (.error (.listenFail name), evs)

/-- The batch loop of `registerNpcApi` (source lines 52-58): iterate the validated
map's properties in order, skip values failing `callbackSchema.safeParse`, and for
each valid handler issue the recursive registration with the composed path and the
matched middleware.  The source's loop body recursively invokes `registerNpcApi`
itself; every such call has a callback-shaped second argument, on which
`registerNpcApi` coincides with `registerSingle` (theorem
`registerNpcApi_on_callback` below), so the loop is modelled via `registerSingle`
to keep the definition structurally recursive. -/
def registerSiblings (env : Env) (plat : Platform) (pn : String)
    (mwSrc : List (String × JsValue)) :
    List (String × JsValue) → List (Except RegError RegResult × List Ev)
  | [] => []
  | (prop, v) :: rest =>
    if (callbackSafeParse v).isSome then
      registerSingle env plat (.str (pathJoin plat pn prop)) v (mwArg mwSrc prop) ::
        registerSiblings env plat pn mwSrc rest
    else
      registerSiblings env plat pn mwSrc rest

/-- The string a settled single registration contributes to the batch result. -/
def resultStr : RegResult → String
  | .single s => s
  | .batch _ => ""

/-- Collect the sibling futures in order, failing with the first failure. -/
def collectIds : List (Except RegError RegResult) → Except RegError (List String)
  | [] => .ok []
  | .error e :: _ => .error e
  | .ok r :: rest => (collectIds rest).map (fun l => resultStr r :: l)

/-- `Promise.all` over the sibling registrations, in the sequential model: resolves
with the identifiers in input order, rejects with the first failure. -/
def promiseAll (rs : List (Except RegError RegResult)) : Except RegError RegResult :=
  (collectIds rs).map RegResult.batch

/-- Shallow embedding of `registerNpcApi` (source lines 31-62).  The first argument
is validated with `z.string()`; the second argument is classified by
`callbackSchema.safeParse`: on success the single-handler branch runs, otherwise
the value is validated against `npcApiSchema` and the batch loop runs, aggregated
with `Promise.all`.  The result pairs the settled future with the ordered trace of
observable side effects. -/
def registerNpcApi (env : Env) (plat : Platform)
    (pathOrNamespace callbackOrApi middleware : JsValue) :
    Except RegError RegResult × List Ev :=
  match zStringSafeParse pathOrNamespace with
  | none => (.error (.validation "string"), [])
  | some pn =>
    if (callbackSafeParse callbackOrApi).isSome then
      registerSingle env plat pathOrNamespace callbackOrApi middleware
    else
      match npcApiSafeParse callbackOrApi with
      | none => (.error (.validation "npcApi"), [])
      | some fields =>
        let promises := registerSiblings env plat pn fields fields
        (promiseAll (promises.map Prod.fst), (promises.map Prod.snd).flatten)

/-- The map entries the batch loop registers: exactly the handler-valued
properties, in iteration order. -/
def handlerEntries (fields : List (String × JsValue)) : List (String × JsValue) :=
  fields.filter (fun kv => (callbackSafeParse kv.2).isSome)

/-- The endpoint name of a batch leaf: `join('vortex', join(namespace, prop))`. -/
def leafName (plat : Platform) (pn prop : String) : String :=
  pathJoin plat "vortex" (pathJoin plat pn prop)

/-- Closed form of one batch leaf registration. -/
def leaf (env : Env) (plat : Platform) (pn : String)
    (mwSrc : List (String × JsValue)) (kv : String × JsValue) :
    Except RegError RegResult × List Ev :=
  let name := leafName plat pn kv.1
  let mwId := callbackSafeParse (mwArg mwSrc kv.1)
  let cbId := (callbackSafeParse kv.2).getD 0
  let evs := [Ev.create cbId mwId, Ev.onError, Ev.listen name]
  if env.transport name then (.ok (.single name), evs)
  else (.error (.listenFail name), evs)

/-- The source's batch loop calls `registerNpcApi` recursively, always with a
callback-shaped second argument; on such arguments `registerNpcApi` is exactly
`registerSingle`, so modelling the loop with `registerSingle` is faithful. -/
theorem registerNpcApi_on_callback (env : Env) (plat : Platform)
    (pon v mw : JsValue) (h : (callbackSafeParse v).isSome = true) :
    registerNpcApi env plat pon v mw = registerSingle env plat pon v mw := by
  unfold registerNpcApi registerSingle
  cases hp : zStringSafeParse pon with
  | none => rfl
  | some pn => simp [h]

theorem splitSegs_eq_headD_cons_tail (p : Char → Bool) (l : List Char) :
    splitSegs p l = (splitSegs p l).headD [] :: (splitSegs p l).tail := by
  cases l with
  | nil => rfl
  | cons c cs =>
    unfold splitSegs
    by_cases h : p c <;> simp [h]

theorem splitSegs_sepFree (p : Char → Bool) (l : List Char)
    (h : ∀ c ∈ l, p c = false) : splitSegs p l = [l] := by
  induction l with
  | nil => rfl
  | cons c cs ih =>
    unfold splitSegs
    rw [ih (fun x hx => h x (List.mem_cons_of_mem c hx))]
    simp [h c (List.mem_cons_self c cs)]

theorem splitSegs_cons (p : Char → Bool) (c : Char) (cs : List Char) :
    splitSegs p (c :: cs)
      = if p c then [] :: splitSegs p cs
        else (c :: (splitSegs p cs).headD []) :: (splitSegs p cs).tail := rfl

theorem splitSegs_append (p : Char → Bool) (xs l : List Char)
    (h : ∀ c ∈ xs, p c = false) :
    splitSegs p (xs ++ l)
      = (xs ++ (splitSegs p l).headD []) :: (splitSegs p l).tail := by
  induction xs with
  | nil => simpa using splitSegs_eq_headD_cons_tail p l
  | cons c cs ih =>
    have hc : p c = false := h c (List.mem_cons_self c cs)
    have ih2 := ih (fun x hx => h x (List.mem_cons_of_mem c hx))
    simp only [List.cons_append]
    rw [splitSegs_cons, ih2, if_neg (by simp [hc])]
    simp

theorem splitSegs_mid (p : Char → Bool) (xs ys : List Char) (c : Char)
    (hxs : ∀ x ∈ xs, p x = false) (hc : p c = true) (hys : ∀ x ∈ ys, p x = false) :
    splitSegs p (xs ++ c :: ys) = [xs, ys] := by
  rw [splitSegs_append p xs (c :: ys) hxs]
  rw [splitSegs_cons, splitSegs_sepFree p ys hys, if_pos hc]
  simp

theorem vortex_sepFree (plat : Platform) :
    ∀ c ∈ ("vortex" : String).data, isSep plat c = false := by
  cases plat <;> decide

theorem isSep_sepChar (plat : Platform) : isSep plat (sepChar plat) = true := by
  cases plat <;> rfl

theorem data_vortex_sep (plat : Platform) (p : String) :
    ("vortex" ++ sepStr plat ++ p).data
      = ("vortex" : String).data ++ sepChar plat :: p.data := by
  rw [String.data_append, String.data_append]
  simp [sepStr]

theorem split_vortex_sep (plat : Platform) (p : String)
    (h4 : ∀ c ∈ p.data, isSep plat c = false) :
    splitSegs (isSep plat) ("vortex" ++ sepStr plat ++ p).data
      = [("vortex" : String).data, p.data] := by
  rw [data_vortex_sep]
  exact splitSegs_mid _ _ _ _ (vortex_sepFree plat) (isSep_sepChar plat) h4

theorem vortex_sep_ne_empty (plat : Platform) (p : String) :
    ("vortex" ++ sepStr plat ++ p) ≠ "" := by
  intro h
  have h2 := congrArg String.data h
  rw [data_vortex_sep] at h2
  simp at h2

theorem lastComponent_vortex_normal (plat : Platform) (p : String)
    (h4 : ∀ c ∈ p.data, isSep plat c = false) :
    lastComponent plat ("vortex" ++ sepStr plat ++ p) = some p := by
  unfold lastComponent components
  rw [split_vortex_sep plat p h4]
  simp

/-- On every platform, joining the fixed root `"vortex"` with one normal segment
(non-empty, not `"."` or `".."`, free of separator characters) yields exactly
`"vortex"`, the platform separator, then the segment. -/
theorem pathJoin_vortex_normal (plat : Platform) (p : String)
    (h1 : p ≠ "") (h2 : p ≠ ".") (h3 : p ≠ "..")
    (h4 : ∀ c ∈ p.data, isSep plat c = false) :
    pathJoin plat "vortex" p = "vortex" ++ sepStr plat ++ p := by
  have hjoined : pathJoin plat "vortex" p
      = pathNormalize plat ("vortex" ++ sepStr plat ++ p) := by
    unfold pathJoin
    simp [h1, vortex_sep_ne_empty plat p,
      show ("vortex" : String) ≠ "" from by decide]
  rw [hjoined]
  unfold pathNormalize
  rw [split_vortex_sep plat p h4]
  have hmk : String.mk p.data = p := rfl
  have hnorm : normSegs ["vortex", p] = ["vortex", p] := by
    unfold normSegs
    simp [normStep, h1, h2, h3]
  simp only [List.map_cons, List.map_nil, hmk]
  have hmkv : String.mk ("vortex" : String).data = "vortex" := rfl
  rw [hmkv, hnorm]
  simp [joinSegs]

theorem zString_str (s : String) : zStringSafeParse (.str s) = some s := rfl

theorem callbackSafeParse_fn (i : Nat) : callbackSafeParse (.fn i) = some i := rfl

theorem callbackSafeParse_undef : callbackSafeParse .undefv = none := rfl

theorem truthy_undef : truthy .undefv = false := rfl

theorem registerSingle_badmw (env : Env) (plat : Platform) (p : String) (cb : Nat)
    (mw : JsValue) (ht : truthy mw = true) (hc : callbackSafeParse mw = none) :
    registerSingle env plat (.str p) (.fn cb) mw
      = (.error (.validation "callback"), []) := by
  unfold registerSingle
  simp only [zString_str, callbackSafeParse_fn, ht, hc]
  simp

theorem registerSingle_eq_leaf (env : Env) (plat : Platform) (pn : String)
    (mwSrc : List (String × JsValue)) (prop : String) (v : JsValue)
    (h : (callbackSafeParse v).isSome = true) :
    registerSingle env plat (.str (pathJoin plat pn prop)) v (mwArg mwSrc prop)
      = leaf env plat pn mwSrc (prop, v) := by
  cases v <;> simp [callbackSafeParse] at h
  by_cases hm : (truthy (mwLookup mwSrc prop)
      && (callbackSafeParse (mwLookup mwSrc prop)).isSome) = true
  · have hmt : truthy (mwLookup mwSrc prop) = true :=
      (Bool.and_eq_true _ _ |>.mp hm).1
    have hms : (callbackSafeParse (mwLookup mwSrc prop)).isSome = true :=
      (Bool.and_eq_true _ _ |>.mp hm).2
    obtain ⟨mid, hmid⟩ := Option.isSome_iff_exists.mp hms
    have hma : mwArg mwSrc prop = mwLookup mwSrc prop := by
      unfold mwArg
      simp [hm]
    unfold registerSingle leaf
    rw [hma]
    simp only [zString_str, callbackSafeParse_fn, hmt, hmid, leafName]
    simp [npcOn, createNpc, npcListen]
  · have hmf : (truthy (mwLookup mwSrc prop)
        && (callbackSafeParse (mwLookup mwSrc prop)).isSome) = false := by
      simpa using hm
    have hma : mwArg mwSrc prop = .undefv := by
      unfold mwArg
      simp [hmf]
    unfold registerSingle leaf
    rw [hma]
    simp only [zString_str, callbackSafeParse_fn, callbackSafeParse_undef,
      truthy_undef, leafName]
    simp [npcOn, createNpc, npcListen]

theorem registerSiblings_eq (env : Env) (plat : Platform) (pn : String)
    (mwSrc : List (String × JsValue)) (l : List (String × JsValue)) :
    registerSiblings env plat pn mwSrc l
      = (l.filter (fun kv => (callbackSafeParse kv.2).isSome)).map
          (leaf env plat pn mwSrc) := by
  induction l with
  | nil => rfl
  | cons kv rest ih =>
    obtain ⟨prop, v⟩ := kv
    by_cases h : (callbackSafeParse v).isSome = true
    · simp [registerSiblings, h, List.filter_cons, ih,
        registerSingle_eq_leaf env plat pn mwSrc prop v h]
    · simp [registerSiblings, h, List.filter_cons, ih]

theorem registerNpcApi_batch_eq (env : Env) (plat : Platform) (ns : String)
    (fields : List (String × JsValue)) (mw : JsValue)
    (hv : npcApiSafeParse (.obj fields) = some fields) :
    registerNpcApi env plat (.str ns) (.obj fields) mw
      = (promiseAll ((handlerEntries fields).map
            (fun kv => (leaf env plat ns fields kv).1)),
         ((handlerEntries fields).map
            (fun kv => (leaf env plat ns fields kv).2)).flatten) := by
  unfold registerNpcApi
  simp [zStringSafeParse, callbackSafeParse, hv, registerSiblings_eq,
    handlerEntries, List.map_map, Function.comp]
  exact ⟨rfl, rfl⟩

theorem leaf_snd (env : Env) (plat : Platform) (pn : String)
    (mwSrc : List (String × JsValue)) (kv : String × JsValue) :
    (leaf env plat pn mwSrc kv).2
      = [Ev.create ((callbackSafeParse kv.2).getD 0)
           (callbackSafeParse (mwArg mwSrc kv.1)),
         Ev.onError, Ev.listen (leafName plat pn kv.1)] := by
  unfold leaf
  by_cases h : env.transport (leafName plat pn kv.1) = true <;> simp [h]

theorem leaf_fst_ok (env : Env) (plat : Platform) (pn : String)
    (mwSrc : List (String × JsValue)) (kv : String × JsValue)
    (h : env.transport (leafName plat pn kv.1) = true) :
    (leaf env plat pn mwSrc kv).1 = .ok (.single (leafName plat pn kv.1)) := by
  unfold leaf
  simp [h]

theorem leaf_fst_fail (env : Env) (plat : Platform) (pn : String)
    (mwSrc : List (String × JsValue)) (kv : String × JsValue)
    (h : env.transport (leafName plat pn kv.1) = false) :
    (leaf env plat pn mwSrc kv).1 = .error (.listenFail (leafName plat pn kv.1)) := by
  unfold leaf
  simp [h]

theorem collectIds_all_ok (env : Env) (plat : Platform) (pn : String)
    (mwSrc : List (String × JsValue)) (l : List (String × JsValue))
    (h : ∀ kv ∈ l, env.transport (leafName plat pn kv.1) = true) :
    collectIds (l.map (fun kv => (leaf env plat pn mwSrc kv).1))
      = .ok (l.map (fun kv => leafName plat pn kv.1)) := by
  induction l with
  | nil => rfl
  | cons kv rest ih =>
    have hk := h kv (List.mem_cons_self kv rest)
    have hr := ih (fun x hx => h x (List.mem_cons_of_mem kv hx))
    simp [List.map_cons, leaf_fst_ok env plat pn mwSrc kv hk, collectIds, hr,
      resultStr, Except.map]

theorem collectIds_first_fail (env : Env) (plat : Platform) (pn : String)
    (mwSrc : List (String × JsValue)) (l : List (String × JsValue))
    (kf : String × JsValue)
    (h : l.find? (fun kv => !(env.transport (leafName plat pn kv.1))) = some kf) :
    collectIds (l.map (fun kv => (leaf env plat pn mwSrc kv).1))
      = .error (.listenFail (leafName plat pn kf.1)) := by
  induction l with
  | nil => simp [List.find?] at h
  | cons kv rest ih =>
    by_cases ht : env.transport (leafName plat pn kv.1) = true
    · rw [List.find?_cons_of_neg _ (by simp [ht])] at h
      simp [List.map_cons, leaf_fst_ok env plat pn mwSrc kv ht, collectIds, ih h,
        Except.map]
    · have htf : env.transport (leafName plat pn kv.1) = false := by
        simpa using ht
      rw [List.find?_cons_of_pos _ (by simp [htf])] at h
      have hkf : kv = kf := by simpa using h
      subst hkf
      simp [List.map_cons, leaf_fst_fail env plat pn mwSrc kv htf, collectIds]

/-- C1 (amended): if the first argument of a register call (single or batch form)
is not a string, the call fails immediately with the string-schema validation
error and performs no side effect at all: no factory call, no subscription, no
listen attempt, no log.  (The empty string, however, is a string: `z.string()`
accepts it, so it is not rejected — see `registerNpcApi_empty_string_accepted`.) -/
theorem registerNpcApi_nonstring_first_arg (env : Env) (plat : Platform)
    (v cb mw : JsValue) (h : zStringSafeParse v = none) :
    registerNpcApi env plat v cb mw = (.error (.validation "string"), []) := by
  unfold registerNpcApi
  simp [h]

/-- C1 witness: a numeric first argument is rejected with the string-schema
validation error and an empty effect trace. -/
theorem registerNpcApi_nonstring_first_arg_app :
    registerNpcApi allOkEnv .posix (.num 3) (.fn 0) .undefv
      = (.error (.validation "string"), []) :=
  registerNpcApi_nonstring_first_arg allOkEnv .posix (.num 3) (.fn 0) .undefv rfl

/-- C1 counterexample: the claim states that the empty string is rejected with a
validation error before any side effect, but `z.string()` accepts `""`: the call
proceeds, the factory is called, and the registration resolves to `"vortex"`. -/
theorem registerNpcApi_empty_string_accepted :
    registerNpcApi allOkEnv .posix (.str "") (.fn 0) .undefv
      = (.ok (.single "vortex"),
         [Ev.create 0 none, Ev.onError, Ev.listen "vortex"]) := rfl

/-- C2 (amended): path composition is deterministic and collapses a "." base to
the segment, but it delegates to the platform's path join: segments are joined
with the platform's own separator, so the composed path is "nexus/getGames" on
POSIX but "nexus\getGames" on Windows — composition is not platform-independent. -/
theorem pathJoin_examples_per_platform :
    pathJoin .posix "." "ping" = "ping" ∧
    pathJoin .win32 "." "ping" = "ping" ∧
    pathJoin .posix "nexus" "getGames" = "nexus/getGames" ∧
    pathJoin .win32 "nexus" "getGames" = "nexus\\getGames" :=
  ⟨rfl, rfl, rfl, rfl⟩

/-- C2 counterexample: on the win32 platform the composed path uses the backslash
separator, refuting "for every platform, compose(nexus, getGames) equals
nexus/getGames". -/
theorem pathJoin_win32_not_slash :
    pathJoin .win32 "nexus" "getGames" ≠ "nexus/getGames" := by decide

/-- C3 (amended): for every handler and every path that is a single normal segment
(non-empty, not "." or "..", free of separator characters), the single
registration resolves to the fixed root "vortex", the platform separator, then
the path — a non-empty identifier whose last path component is the path.  (For
paths the join normalizes away, such as ".", the identifier need not contain the
path as a suffix component: see `registerNpcApi_dot_path_no_suffix`.) -/
theorem registerNpcApi_single_identifier (env : Env) (plat : Platform) (p : String)
    (cb : Nat) (h1 : p ≠ "") (h2 : p ≠ ".") (h3 : p ≠ "..")
    (h4 : ∀ c ∈ p.data, isSep plat c = false)
    (h5 : env.transport ("vortex" ++ sepStr plat ++ p) = true) :
    pathJoin plat "vortex" p = "vortex" ++ sepStr plat ++ p ∧
    (registerNpcApi env plat (.str p) (.fn cb) .undefv).1
      = .ok (.single ("vortex" ++ sepStr plat ++ p)) ∧
    lastComponent plat ("vortex" ++ sepStr plat ++ p) = some p ∧
    ("vortex" ++ sepStr plat ++ p) ≠ "" := by
  have hj := pathJoin_vortex_normal plat p h1 h2 h3 h4
  refine ⟨hj, ?_, lastComponent_vortex_normal plat p h4,
    vortex_sep_ne_empty plat p⟩
  rw [registerNpcApi_on_callback env plat (.str p) (.fn cb) .undefv rfl]
  unfold registerSingle
  simp only [zString_str, callbackSafeParse_fn, truthy_undef, hj]
  simp [h5, npcOn, createNpc, npcListen]

/-- C3 witness: registering path "ping" on POSIX resolves to "vortex/ping", whose
last component is "ping". -/
theorem registerNpcApi_single_identifier_app :
    pathJoin .posix "vortex" "ping" = "vortex" ++ sepStr .posix ++ "ping" ∧
    (registerNpcApi allOkEnv .posix (.str "ping") (.fn 0) .undefv).1
      = .ok (.single ("vortex" ++ sepStr .posix ++ "ping")) ∧
    lastComponent .posix ("vortex" ++ sepStr .posix ++ "ping") = some "ping" ∧
    ("vortex" ++ sepStr .posix ++ "ping") ≠ "" :=
  registerNpcApi_single_identifier allOkEnv .posix "ping" 0 (by decide) (by decide)
    (by decide) (by decide) rfl

/-- C3 counterexample: with path ".", the registration resolves to "vortex" (the
join normalizes "." away), and "vortex" does not contain "." as a suffix
component, refuting the claim's universally quantified suffix property. -/
theorem registerNpcApi_dot_path_no_suffix :
    (registerNpcApi allOkEnv .posix (.str ".") (.fn 0) .undefv).1
      = .ok (.single "vortex") ∧
    ¬ hasSuffixComponent .posix "vortex" "." := by
  refine ⟨rfl, ?_⟩
  unfold hasSuffixComponent
  decide

/-- C6: in batch form, a second argument failing the namespace schema makes the
call fail with the namespace-schema validation error before any side effect: no
endpoint is created, no listen is attempted, the trace is empty. -/
theorem registerNpcApi_invalid_map_no_side_effect (env : Env) (plat : Platform)
    (ns : String) (v mw : JsValue) (h1 : callbackSafeParse v = none)
    (h2 : npcApiSafeParse v = none) :
    registerNpcApi env plat (.str ns) v mw
      = (.error (.validation "npcApi"), []) := by
  unfold registerNpcApi
  simp [zString_str, h1, h2]

/-- C6 witness: a map whose reserved middleware property is not a mapping fails
namespace validation with an empty effect trace. -/
theorem registerNpcApi_invalid_map_no_side_effect_app :
    registerNpcApi allOkEnv .posix (.str "x")
        (.obj [("middleware", .num 1)]) .undefv
      = (.error (.validation "npcApi"), []) :=
  registerNpcApi_invalid_map_no_side_effect allOkEnv .posix "x"
    (.obj [("middleware", .num 1)]) .undefv rfl rfl

/-- C10: when the second argument is not callback-shaped (in particular for every
namespace map), the third argument is completely ignored: the settled future and
the entire effect trace are identical for any two middleware values — the third
argument is neither validated nor depended on. -/
theorem registerNpcApi_batch_ignores_third_arg (env : Env) (plat : Platform)
    (pon v m1 m2 : JsValue) (h : callbackSafeParse v = none) :
    registerNpcApi env plat pon v m1 = registerNpcApi env plat pon v m2 := by
  unfold registerNpcApi
  cases hp : zStringSafeParse pon with
  | none => rfl
  | some pn => simp [h]

/-- C10 witness: for a concrete namespace map, passing a function as third
argument is observationally identical to omitting it. -/
theorem registerNpcApi_batch_ignores_third_arg_app :
    registerNpcApi allOkEnv .posix (.str "ns") (.obj [("a", .fn 3)]) (.fn 99)
      = registerNpcApi allOkEnv .posix (.str "ns") (.obj [("a", .fn 3)]) .undefv :=
  registerNpcApi_batch_ignores_third_arg allOkEnv .posix (.str "ns")
    (.obj [("a", .fn 3)]) (.fn 99) .undefv rfl

theorem callbackSafeParse_some (v : JsValue) (i : Nat)
    (h : callbackSafeParse v = some i) : v = .fn i := by
  cases v <;> simp_all [callbackSafeParse]

theorem lookupField_of_mem_nodup (fields : List (String × JsValue)) (k : String)
    (v : JsValue) (hm : (k, v) ∈ fields) (hnd : (fields.map Prod.fst).Nodup) :
    lookupField fields k = some v := by
  induction fields with
  | nil => simp at hm
  | cons kv rest ih =>
    obtain ⟨k0, v0⟩ := kv
    rw [List.map_cons, List.nodup_cons] at hnd
    rcases List.mem_cons.mp hm with heq | hmem
    · obtain ⟨hk, hv⟩ := Prod.mk.injEq .. ▸ heq
      subst hk hv
      simp [lookupField]
    · have hk : k ∈ rest.map Prod.fst := List.mem_map.mpr ⟨(k, v), hmem, rfl⟩
      have hne : ¬(k0 = k) := fun h => hnd.1 (h ▸ hk)
      simp [lookupField, hne, ih hmem hnd.2]

/-- C4: for a valid namespace map, the batch registration resolves to exactly one
identifier per handler-valued property, in the map's property iteration order;
non-handler-valued properties — the reserved middleware key included — are
dropped silently: the aggregate still resolves, they contribute no event to the
trace, and no log call is made. -/
theorem registerNpcApi_batch_count_order (env : Env) (plat : Platform)
    (ns : String) (fields : List (String × JsValue)) (mw : JsValue)
    (hv : npcApiSafeParse (.obj fields) = some fields)
    (ht : ∀ kv ∈ handlerEntries fields, env.transport (leafName plat ns kv.1) = true)
    (hnd : (fields.map Prod.fst).Nodup) :
    (registerNpcApi env plat (.str ns) (.obj fields) mw).1
      = .ok (.batch ((handlerEntries fields).map (fun kv => leafName plat ns kv.1))) ∧
    ((handlerEntries fields).map (fun kv => leafName plat ns kv.1)).length
      = (fields.filter (fun kv => (callbackSafeParse kv.2).isSome)).length ∧
    (registerNpcApi env plat (.str ns) (.obj fields) mw).2
      = ((handlerEntries fields).map (fun kv => (leaf env plat ns fields kv).2)).flatten ∧
    (∀ le, Ev.logw le ∉ (registerNpcApi env plat (.str ns) (.obj fields) mw).2) ∧
    "middleware" ∉ (handlerEntries fields).map Prod.fst := by
  have hb := registerNpcApi_batch_eq env plat ns fields mw hv
  have htrace : (registerNpcApi env plat (.str ns) (.obj fields) mw).2
      = ((handlerEntries fields).map (fun kv => (leaf env plat ns fields kv).2)).flatten := by
    rw [hb]
  refine ⟨?_, by simp [handlerEntries], htrace, ?_, ?_⟩
  · rw [hb]
    show promiseAll _ = _
    unfold promiseAll
    rw [collectIds_all_ok env plat ns fields (handlerEntries fields) ht]
    rfl
  · intro le hle
    rw [htrace] at hle
    rw [List.mem_flatten] at hle
    obtain ⟨tr, htr, hmem⟩ := hle
    rw [List.mem_map] at htr
    obtain ⟨kv, hkv, heq⟩ := htr
    rw [← heq, leaf_snd] at hmem
    simp at hmem
  · intro hmem
    rw [List.mem_map] at hmem
    obtain ⟨kv, hkv, hfst⟩ := hmem
    have hkv2 := List.mem_filter.mp hkv
    have hsome : (callbackSafeParse kv.2).isSome = true := by simpa using hkv2.2
    obtain ⟨i, hi⟩ := Option.isSome_iff_exists.mp hsome
    have hfn := callbackSafeParse_some kv.2 i hi
    have hmm : ("middleware", kv.2) ∈ fields := by
      have : kv = (kv.1, kv.2) := rfl
      rw [this, hfst] at hkv2
      exact hkv2.1
    have hlk := lookupField_of_mem_nodup fields "middleware" kv.2 hmm hnd
    rw [hfn] at hlk
    have hv2 : npcApiSafeParse (.obj fields) = none := by
      simp only [npcApiSafeParse, hlk, JsValue.isObj]
      simp
    rw [hv2] at hv
    simp at hv

/-- C4 witness: the spec's scenario map (a handler at "a", a non-handler 42 at
"b", a middleware for "a") resolves to the single identifier for "a", with no log
event and the middleware key dropped. -/
theorem registerNpcApi_batch_count_order_app :
    (registerNpcApi allOkEnv .posix (.str "x")
        (.obj [("a", .fn 1), ("b", .num 42), ("middleware", .obj [("a", .fn 9)])])
        .undefv).1
      = .ok (.batch ["vortex/x/a"]) ∧
    (["vortex/x/a"] : List String).length
      = (([("a", .fn 1), ("b", .num 42), ("middleware", .obj [("a", .fn 9)])] :
          List (String × JsValue)).filter
            (fun kv => (callbackSafeParse kv.2).isSome)).length ∧
    (registerNpcApi allOkEnv .posix (.str "x")
        (.obj [("a", .fn 1), ("b", .num 42), ("middleware", .obj [("a", .fn 9)])])
        .undefv).2
      = ((handlerEntries
            [("a", .fn 1), ("b", .num 42), ("middleware", .obj [("a", .fn 9)])]).map
          (fun kv => (leaf allOkEnv .posix "x"
            [("a", .fn 1), ("b", .num 42), ("middleware", .obj [("a", .fn 9)])] kv).2)).flatten ∧
    (∀ le, Ev.logw le ∉ (registerNpcApi allOkEnv .posix (.str "x")
        (.obj [("a", .fn 1), ("b", .num 42), ("middleware", .obj [("a", .fn 9)])])
        .undefv).2) ∧
    "middleware" ∉ (handlerEntries
        [("a", .fn 1), ("b", .num 42), ("middleware", .obj [("a", .fn 9)])]).map Prod.fst :=
  registerNpcApi_batch_count_order allOkEnv .posix "x"
    [("a", .fn 1), ("b", .num 42), ("middleware", .obj [("a", .fn 9)])] .undefv
    rfl (fun _ _ => rfl) (by decide)

theorem registerSingle_shape (env : Env) (plat : Platform) (pon v m : JsValue) :
    (∃ s, (registerSingle env plat pon v m).1 = .ok (.single s)) ∨
    (∃ e, (registerSingle env plat pon v m).1 = .error e) := by
  unfold registerSingle
  cases hp : zStringSafeParse pon with
  | none => exact Or.inr ⟨_, rfl⟩
  | some path =>
    cases hc : callbackSafeParse v with
    | none => exact Or.inr ⟨_, rfl⟩
    | some cb =>
      by_cases htr : truthy m = true
      · simp only [htr]
        cases hm : callbackSafeParse m with
        | none => simp
        | some mid =>
          by_cases hl : env.transport (pathJoin plat "vortex" path) = true
          · exact Or.inl ⟨pathJoin plat "vortex" path,
              by simp [hl, npcListen, npcOn, createNpc]⟩
          · exact Or.inr ⟨.listenFail (pathJoin plat "vortex" path), by simp [hl]⟩
      · have htr2 : truthy m = false := by simpa using htr
        simp only [htr2]
        by_cases hl : env.transport (pathJoin plat "vortex" path) = true
        · exact Or.inl ⟨pathJoin plat "vortex" path,
            by simp [hl, npcListen, npcOn, createNpc]⟩
        · exact Or.inr ⟨.listenFail (pathJoin plat "vortex" path), by simp [hl]⟩

theorem registerNpcApi_not_callback_shape (env : Env) (plat : Platform)
    (pon v m : JsValue) (h : (callbackSafeParse v).isSome = false) :
    (∃ ids, (registerNpcApi env plat pon v m).1 = .ok (.batch ids) ∧
      (npcApiSafeParse v).isSome = true) ∨
    (∃ e, (registerNpcApi env plat pon v m).1 = .error e) := by
  unfold registerNpcApi
  cases hp : zStringSafeParse pon with
  | none => exact Or.inr ⟨_, rfl⟩
  | some pn =>
    simp only [h]
    cases ha : npcApiSafeParse v with
    | none => simp
    | some fields =>
      cases hcol : collectIds
          ((registerSiblings env plat pn fields fields).map Prod.fst) with
      | error e => exact Or.inr ⟨e, by simp [promiseAll, hcol, Except.map]⟩
      | ok l =>
        exact Or.inl ⟨l, by simp [promiseAll, hcol, Except.map], by simp [ha]⟩

/-- C5 (amended): overload resolution is decided purely by the runtime shape of
the second argument, never by argument count: for every middleware value, a
callback-shaped second argument makes the call behave exactly as the
single-handler form; a second argument that is not callback-shaped never
resolves single-form; a single-form resolution implies the second argument was
callback-shaped; and a batch-form resolution implies it was not callback-shaped
and passed the namespace schema.  (A string second argument is not
callback-shaped: it takes the batch branch — see
`registerNpcApi_string_second_arg_batch`.) -/
theorem registerNpcApi_overload_by_shape (env : Env) (plat : Platform)
    (pon v m : JsValue) :
    ((callbackSafeParse v).isSome = true →
      registerNpcApi env plat pon v m = registerSingle env plat pon v m) ∧
    ((callbackSafeParse v).isSome = false →
      ∀ s, (registerNpcApi env plat pon v m).1 ≠ .ok (.single s)) ∧
    (∀ s, (registerNpcApi env plat pon v m).1 = .ok (.single s) →
      (callbackSafeParse v).isSome = true) ∧
    (∀ ids, (registerNpcApi env plat pon v m).1 = .ok (.batch ids) →
      (callbackSafeParse v).isSome = false ∧ (npcApiSafeParse v).isSome = true) := by
  have hB : (callbackSafeParse v).isSome = false →
      ∀ s, (registerNpcApi env plat pon v m).1 ≠ .ok (.single s) := by
    intro h s heq
    rcases registerNpcApi_not_callback_shape env plat pon v m h with
      ⟨ids, hids, _⟩ | ⟨e, he⟩
    · rw [heq] at hids
      simp at hids
    · rw [heq] at he
      simp at he
  refine ⟨fun h => registerNpcApi_on_callback env plat pon v m h, hB, ?_, ?_⟩
  · intro s heq
    by_cases hcb : (callbackSafeParse v).isSome = true
    · exact hcb
    · exact absurd heq (hB (by simpa using hcb) s)
  · intro ids heq
    by_cases hcb : (callbackSafeParse v).isSome = true
    · exfalso
      rw [registerNpcApi_on_callback env plat pon v m hcb] at heq
      rcases registerSingle_shape env plat pon v m with ⟨s, hs⟩ | ⟨e, he⟩
      · rw [heq] at hs
        simp at hs
      · rw [heq] at he
        simp at he
    · have hcb2 : (callbackSafeParse v).isSome = false := by simpa using hcb
      rcases registerNpcApi_not_callback_shape env plat pon v m hcb2 with
        ⟨ids2, hids, hnp⟩ | ⟨e, he⟩
      · exact ⟨hcb2, hnp⟩
      · rw [heq] at he
        simp at he

/-- C5 witness: with a callback-shaped second argument and a (bogus) third
argument present, the call still behaves exactly as the single-handler form. -/
theorem registerNpcApi_overload_by_shape_app :
    registerNpcApi allOkEnv .posix (.str "p") (.fn 0) (.str "x")
      = registerSingle allOkEnv .posix (.str "p") (.fn 0) (.str "x") :=
  (registerNpcApi_overload_by_shape allOkEnv .posix (.str "p") (.fn 0) (.str "x")).1
    rfl

/-- C5 counterexample: a string-shaped second argument does not select the
single-handler form: the call takes the batch branch and fails against the
namespace schema, observably different from the single form's callback-schema
failure on the same arguments. -/
theorem registerNpcApi_string_second_arg_batch :
    registerNpcApi allOkEnv .posix (.str "p") (.str "s") .undefv
      = (.error (.validation "npcApi"), []) ∧
    registerSingle allOkEnv .posix (.str "p") (.str "s") .undefv
      = (.error (.validation "callback"), []) ∧
    registerNpcApi allOkEnv .posix (.str "p") (.str "s") .undefv
      ≠ registerSingle allOkEnv .posix (.str "p") (.str "s") .undefv := by
  refine ⟨rfl, rfl, ?_⟩
  decide

/-- C7: for a valid namespace map with all listens succeeding, (i) the batch
resolves with exactly the valid-handler keys — a middleware entry whose key has no
handler-shaped property is inert: it registers nothing and causes no error; (ii)
every handler-valued property k is registered, producing a create event carrying
the middleware argument computed for k; (iii) middleware is attached iff the
middleware map entry for k exists (is truthy) and is itself handler-shaped — in
particular a non-handler middleware entry leaves k registered, without
middleware. -/
theorem registerNpcApi_middleware_pairing (env : Env) (plat : Platform)
    (ns : String) (fields : List (String × JsValue)) (mw : JsValue)
    (hv : npcApiSafeParse (.obj fields) = some fields)
    (ht : ∀ kv ∈ handlerEntries fields, env.transport (leafName plat ns kv.1) = true) :
    (registerNpcApi env plat (.str ns) (.obj fields) mw).1
      = .ok (.batch ((handlerEntries fields).map (fun kv => leafName plat ns kv.1))) ∧
    (∀ kv ∈ fields, ∀ c, callbackSafeParse kv.2 = some c →
      Ev.create c (callbackSafeParse (mwArg fields kv.1))
        ∈ (registerNpcApi env plat (.str ns) (.obj fields) mw).2) ∧
    (∀ k, (callbackSafeParse (mwArg fields k)).isSome
      = (truthy (mwLookup fields k) && (callbackSafeParse (mwLookup fields k)).isSome)) := by
  have hb := registerNpcApi_batch_eq env plat ns fields mw hv
  refine ⟨?_, ?_, ?_⟩
  · rw [hb]
    show promiseAll _ = _
    unfold promiseAll
    rw [collectIds_all_ok env plat ns fields (handlerEntries fields) ht]
    rfl
  · intro kv hkv c hc
    have hmemh : kv ∈ handlerEntries fields :=
      List.mem_filter.mpr ⟨hkv, by simp [hc]⟩
    have htr2 : (registerNpcApi env plat (.str ns) (.obj fields) mw).2
        = ((handlerEntries fields).map (fun kv => (leaf env plat ns fields kv).2)).flatten := by
      rw [hb]
    rw [htr2]
    refine List.mem_flatten.mpr ⟨(leaf env plat ns fields kv).2,
      List.mem_map_of_mem _ hmemh, ?_⟩
    rw [leaf_snd, hc]
    simp
  · intro k
    by_cases hm : (truthy (mwLookup fields k)
        && (callbackSafeParse (mwLookup fields k)).isSome) = true
    · have hma : mwArg fields k = mwLookup fields k := by
        unfold mwArg
        simp [hm]
      rw [hma, hm]
      exact (Bool.and_eq_true _ _ |>.mp hm).2
    · have hmf : (truthy (mwLookup fields k)
          && (callbackSafeParse (mwLookup fields k)).isSome) = false := by
        simpa using hm
      have hma : mwArg fields k = .undefv := by
        unfold mwArg
        simp [hmf]
      rw [hma, hmf]
      rfl

/-- C7 witness: in the map with handlers "a", "b" and middleware entries for "a"
(handler-shaped), "b" (the non-handler 0) and "c" (no matching handler), both "a"
and "b" are registered — "a" with middleware 9, "b" without — the inert "c" entry
registers nothing, and the aggregate resolves without error. -/
theorem registerNpcApi_middleware_pairing_app :
    (registerNpcApi allOkEnv .posix (.str "x")
        (.obj [("a", .fn 1), ("b", .fn 2),
          ("middleware", .obj [("a", .fn 9), ("b", .num 0), ("c", .fn 7)])])
        .undefv).1
      = .ok (.batch ["vortex/x/a", "vortex/x/b"]) ∧
    (∀ kv ∈ ([("a", .fn 1), ("b", .fn 2),
          ("middleware", .obj [("a", .fn 9), ("b", .num 0), ("c", .fn 7)])] :
        List (String × JsValue)), ∀ c, callbackSafeParse kv.2 = some c →
      Ev.create c (callbackSafeParse (mwArg
          [("a", .fn 1), ("b", .fn 2),
            ("middleware", .obj [("a", .fn 9), ("b", .num 0), ("c", .fn 7)])] kv.1))
        ∈ (registerNpcApi allOkEnv .posix (.str "x")
            (.obj [("a", .fn 1), ("b", .fn 2),
              ("middleware", .obj [("a", .fn 9), ("b", .num 0), ("c", .fn 7)])])
            .undefv).2) ∧
    (∀ k, (callbackSafeParse (mwArg
        [("a", .fn 1), ("b", .fn 2),
          ("middleware", .obj [("a", .fn 9), ("b", .num 0), ("c", .fn 7)])] k)).isSome
      = (truthy (mwLookup
            [("a", .fn 1), ("b", .fn 2),
              ("middleware", .obj [("a", .fn 9), ("b", .num 0), ("c", .fn 7)])] k)
          && (callbackSafeParse (mwLookup
            [("a", .fn 1), ("b", .fn 2),
              ("middleware", .obj [("a", .fn 9), ("b", .num 0), ("c", .fn 7)])] k)).isSome)) :=
  registerNpcApi_middleware_pairing allOkEnv .posix "x"
    [("a", .fn 1), ("b", .fn 2),
      ("middleware", .obj [("a", .fn 9), ("b", .num 0), ("c", .fn 7)])] .undefv
    rfl (fun _ _ => rfl)

/-- C8: a successful single registration resolves to the composed identifier, its
trace being exactly create, error-subscription, listen — the error subscription
is attached before the listen call; the endpoint built by that registration
carries exactly one error subscriber, the warn-logging handler, its resolved
identifier is the listen name, and every runtime error event e is forwarded to
the logger exactly once, as level "warn" with e's message and e itself as
details, never touching the endpoint or its identifier. -/
theorem registerNpcApi_error_sink (env : Env) (plat : Platform) (p : String)
    (cb : Nat) (mwId : Option Nat)
    (h : env.transport (pathJoin plat "vortex" p) = true) :
    registerNpcApi env plat (.str p) (.fn cb)
        (match mwId with | none => JsValue.undefv | some m => JsValue.fn m)
      = (.ok (.single (pathJoin plat "vortex" p)),
         [Ev.create cb mwId, Ev.onError, Ev.listen (pathJoin plat "vortex" p)]) ∧
    (npcListen (npcOn (createNpc cb mwId) .warnLog)
        (pathJoin plat "vortex" p)).errorHandlers = [.warnLog] ∧
    (npcListen (npcOn (createNpc cb mwId) .warnLog)
        (pathJoin plat "vortex" p)).endpoint = some (pathJoin plat "vortex" p) ∧
    (∀ e : NpcError,
      npcEmitError (npcListen (npcOn (createNpc cb mwId) .warnLog)
          (pathJoin plat "vortex" p)) e
        = [⟨"warn", e.message, e⟩]) := by
  refine ⟨?_, rfl, rfl, fun e => rfl⟩
  rw [registerNpcApi_on_callback env plat (.str p) (.fn cb) _ rfl]
  cases mwId with
  | none =>
    unfold registerSingle
    simp only [zString_str, callbackSafeParse_fn, truthy_undef]
    simp [h, npcOn, createNpc, npcListen]
  | some m =>
    unfold registerSingle
    simp only [zString_str, callbackSafeParse_fn]
    simp [h, truthy, callbackSafeParse, npcOn, createNpc, npcListen]

/-- C8 witness: registering "ping" (no middleware) on POSIX resolves to
"vortex/ping" with the subscription before the listen, and an error event
⟨"boom", 5⟩ yields exactly the log call ("warn", "boom", the error). -/
theorem registerNpcApi_error_sink_app :
    registerNpcApi allOkEnv .posix (.str "ping") (.fn 0)
        (match (none : Option Nat) with
          | none => JsValue.undefv | some m => JsValue.fn m)
      = (.ok (.single (pathJoin .posix "vortex" "ping")),
         [Ev.create 0 none, Ev.onError,
          Ev.listen (pathJoin .posix "vortex" "ping")]) ∧
    (npcListen (npcOn (createNpc 0 none) .warnLog)
        (pathJoin .posix "vortex" "ping")).errorHandlers = [.warnLog] ∧
    (npcListen (npcOn (createNpc 0 none) .warnLog)
        (pathJoin .posix "vortex" "ping")).endpoint
      = some (pathJoin .posix "vortex" "ping") ∧
    (∀ e : NpcError,
      npcEmitError (npcListen (npcOn (createNpc 0 none) .warnLog)
          (pathJoin .posix "vortex" "ping")) e
        = [⟨"warn", e.message, e⟩]) :=
  registerNpcApi_error_sink allOkEnv .posix "ping" 0 none rfl

/-- An environment in which listening fails exactly for "vortex/x/b". -/
def failBEnv : Env := ⟨fun s => s != "vortex/x/b"⟩

/-- C9: in batch form over a valid map, when some sibling's listen fails, the
aggregate future fails with the first (in iteration order) failing sibling's
listen error, while every sibling — those before and after the failure included —
still runs to completion: the trace is exactly the concatenation of every
sibling's create/subscribe/listen events, every sibling's listen is in the trace
(successful siblings remain registered and listening), and no rollback,
de-registration or cancellation event of any kind occurs. -/
theorem registerNpcApi_first_failure_no_rollback (env : Env) (plat : Platform)
    (ns : String) (fields : List (String × JsValue)) (mw : JsValue)
    (kf : String × JsValue)
    (hv : npcApiSafeParse (.obj fields) = some fields)
    (hf : (handlerEntries fields).find?
        (fun kv => !(env.transport (leafName plat ns kv.1))) = some kf) :
    (registerNpcApi env plat (.str ns) (.obj fields) mw).1
      = .error (.listenFail (leafName plat ns kf.1)) ∧
    (registerNpcApi env plat (.str ns) (.obj fields) mw).2
      = ((handlerEntries fields).map (fun kv => (leaf env plat ns fields kv).2)).flatten ∧
    (∀ kv ∈ handlerEntries fields,
      Ev.listen (leafName plat ns kv.1)
        ∈ (registerNpcApi env plat (.str ns) (.obj fields) mw).2) := by
  have hb := registerNpcApi_batch_eq env plat ns fields mw hv
  have htrace : (registerNpcApi env plat (.str ns) (.obj fields) mw).2
      = ((handlerEntries fields).map (fun kv => (leaf env plat ns fields kv).2)).flatten := by
    rw [hb]
  refine ⟨?_, htrace, ?_⟩
  · rw [hb]
    show promiseAll _ = _
    unfold promiseAll
    rw [collectIds_first_fail env plat ns fields (handlerEntries fields) kf hf]
    rfl
  · intro kv hkv
    rw [htrace]
    refine List.mem_flatten.mpr ⟨(leaf env plat ns fields kv).2,
      List.mem_map_of_mem _ hkv, ?_⟩
    rw [leaf_snd]
    simp

/-- C9 witness: with handlers "a" and "b" and a transport rejecting only
"vortex/x/b", the aggregate fails with the listen error for "b", while "a"'s
create/subscribe/listen events all remain in the trace. -/
theorem registerNpcApi_first_failure_no_rollback_app :
    (registerNpcApi failBEnv .posix (.str "x")
        (.obj [("a", .fn 1), ("b", .fn 2)]) .undefv).1
      = .error (.listenFail (leafName .posix "x" "b")) ∧
    (registerNpcApi failBEnv .posix (.str "x")
        (.obj [("a", .fn 1), ("b", .fn 2)]) .undefv).2
      = ((handlerEntries [("a", .fn 1), ("b", .fn 2)]).map
          (fun kv => (leaf failBEnv .posix "x" [("a", .fn 1), ("b", .fn 2)] kv).2)).flatten ∧
    (∀ kv ∈ handlerEntries [("a", .fn 1), ("b", .fn 2)],
      Ev.listen (leafName .posix "x" kv.1)
        ∈ (registerNpcApi failBEnv .posix (.str "x")
            (.obj [("a", .fn 1), ("b", .fn 2)]) .undefv).2) :=
  registerNpcApi_first_failure_no_rollback failBEnv .posix "x"
    [("a", .fn 1), ("b", .fn 2)] .undefv ("b", .fn 2) rfl rfl

end NpcVortex
